import Mathlib

/-!
Verification of the movie-review backend (src/backend/movie.py).

The backend stores movies and comments in a relational store and exposes
request handlers: get_movies, add_movie, delete_movie, add_comment,
delete_comment, compute_average_rating.  Each handler runs over one
session; queries (`select ... where`) are modelled as list search and
filter over the storage-ordered tables, `first()` as `List.find?`,
`session.delete` as removal by primary key, and float arithmetic over ℚ.
The remote sentiment classifier (analyze_comment_with_openai) is modelled
at the boundary of `json.loads`: the network response text is abstracted
to its parse outcome, an `Option JValue` (none when `json.loads` raises).
-/

namespace MovieApp

/-- A JSON value, the result of a successful `json.loads`. -/
inductive JValue where
  | jnull
  | jbool (b : Bool)
  | jnum (q : ℚ)
  | jstr (s : String)
  | jarr (elems : List JValue)
  | jobj (fields : List (String × JValue))

/-- Python `str()` applied to a value decoded from JSON.  Only the string
case is ever compared against the three sentiment labels; the renderings
of containers begin with their bracket and of scalars with their Python
spelling, so no non-string value can render to a label. -/
def pyStr : JValue → String
  | .jnull => "None"
  | .jbool true => "True"
  | .jbool false => "False"
  | .jnum q => toString q
  | .jstr s => s
  | .jarr _ => "[...]"
  | .jobj _ => "{...}"

def digitsToNat (ds : List Char) : Nat :=
  ds.foldl (fun n d => 10 * n + (d.toNat - 48)) 0

def isDigits (cs : List Char) : Bool :=
  !cs.isEmpty && cs.all Char.isDigit

/-- Mantissa of a Python float literal: digits with at most one point. -/
def parseMantissa (str : String) : Option ℚ :=
  match str.splitOn "." with
  | [ip] => if isDigits ip.toList then some (digitsToNat ip.toList : ℚ) else none
  | [ip, fp] =>
      if (ip.length + fp.length > 0) && (ip.toList.all Char.isDigit)
          && (fp.toList.all Char.isDigit) then
        some ((digitsToNat ip.toList : ℚ) + (digitsToNat fp.toList : ℚ) / (10 ^ fp.length))
      else none
  | _ => none

def parseSignedInt (str : String) : Option Int :=
  match str.toList with
  | '+' :: cs => if isDigits cs then some (digitsToNat cs : Int) else none
  | '-' :: cs => if isDigits cs then some (-(digitsToNat cs : Int)) else none
  | cs => if isDigits cs then some (digitsToNat cs : Int) else none

/-- Python `float(string)`: optional sign, decimal mantissa, optional
exponent; surrounding whitespace stripped.  (IEEE specials such as inf
and nan lie outside the rational abstraction of floats.) -/
def parsePyFloat (s : String) : Option ℚ :=
  let t := s.trim.toLower
  let (sign, rest) :=
    match t.toList with
    | '+' :: cs => ((1 : ℚ), String.mk cs)
    | '-' :: cs => ((-1 : ℚ), String.mk cs)
    | _ => ((1 : ℚ), t)
  match rest.splitOn "e" with
  | [m] => (parseMantissa m).map (fun q => sign * q)
  | [m, e] => do
      let mq ← parseMantissa m
      let ex ← parseSignedInt e
      some (sign * mq * (10 : ℚ) ^ ex)
  | _ => none

/-- Python `float(x)` on a value decoded from JSON: numbers pass through,
booleans become 0 or 1, numeric strings are parsed; `None`, lists and
dicts raise (here: `none`). -/
def pyFloat : JValue → Option ℚ
  | .jnum q => some q
  | .jbool b => some (if b then 1 else 0)
  | .jstr s => parsePyFloat s
  | _ => none

/-- Python `str.upper()` over the ASCII range (character-wise). -/
def pyUpper (s : String) : String := String.mk (s.data.map Char.toUpper)

/-- The three recognized sentiment labels. -/
def sentimentLabels : List String := ["POSITIVE", "NEUTRAL", "NEGATIVE"]

/-- `confidence = max(0.0, min(1.0, confidence))` (movie.py line 143). -/
def clampConfidence (q : ℚ) : ℚ := max 0 (min 1 q)

/-- `if label not in {...}: label = "NEUTRAL"` (movie.py lines 141-142). -/
def normalizeLabel (labelStr : String) : String :=
  if labelStr ∈ sentimentLabels then labelStr else "NEUTRAL"

/-- Body of the try block (movie.py lines 138-144) once `json.loads`
produced a dict with the given fields: `label` defaults to "NEUTRAL" and
is upper-cased; `confidence` defaults to 0.5 and goes through `float()`,
whose failure raises into the except branch returning ("NEUTRAL", 0.5);
an unrecognized label becomes "NEUTRAL" and the confidence is clamped. -/
def parseFields (fields : List (String × JValue)) : String × ℚ :=
  match pyFloat ((fields.lookup "confidence").getD (.jnum (1/2))) with
  | none => ("NEUTRAL", 1/2)
  | some confidence =>
      (normalizeLabel (pyUpper (pyStr ((fields.lookup "label").getD (.jstr "NEUTRAL")))),
       clampConfidence confidence)

/-- The parsing step of `analyze_comment_with_openai` (movie.py lines
137-147), given the outcome of `json.loads` on the model response text
(`none` when `json.loads` raised).  A parse failure, or a payload that is
not a dict (so that `data.get` raises), falls into the except branch
returning ("NEUTRAL", 0.5); a dict is handled by `parseFields`. -/
def analyze_comment_with_openai : Option JValue → String × ℚ
  | some (.jobj fields) => parseFields fields
  | _ => ("NEUTRAL", 1/2)

/-- Row of table `moviedb` (class MovieDB). -/
structure MovieDB where
  id : Nat
  name : String
  director : String
  open_date : String
  genre : String
  poster_url : String
deriving DecidableEq, Repr

/-- Row of table `commentdb` (class CommentDB). -/
structure CommentDB where
  id : Nat
  movie_id : Nat
  user_name : String
  comment : String
  emotion : String
  confidence_score : ℚ
  rate_score : Int
deriving DecidableEq, Repr

/-- Request body of POST /movies/comments/add (class CommentIn). -/
structure CommentIn where
  movie_name : String
  user_name : String
  comment : String
  rate_score : Int
deriving DecidableEq, Repr

/-- The pydantic boundary validation on CommentIn: rate_score has
Field(ge=1, le=5). -/
def CommentIn.Valid (c : CommentIn) : Prop :=
  1 ≤ c.rate_score ∧ c.rate_score ≤ 5

/-- Response element of GET /movies/get (class CommentOut). -/
structure CommentOut where
  movie_name : String
  user_name : String
  comment : String
  emotion : String
  confidence_score : ℚ
  rate_score : Int
deriving DecidableEq, Repr

/-- Request body of POST /movies/add (class MovieIn); the comments field
exists only for front-end compatibility and is never read. -/
structure MovieIn where
  name : String
  director : String
  open_date : String
  genre : String
  poster_url : String
  comments : List CommentOut
deriving DecidableEq, Repr

/-- Response element of GET /movies/get (class MovieOut). -/
structure MovieOut where
  name : String
  director : String
  open_date : String
  genre : String
  poster_url : String
  comments : List CommentOut
deriving DecidableEq, Repr

/-- Response body of the average_score endpoint. -/
structure AverageScores where
  average_rate_score : ℚ
  average_confidence_score : ℚ
deriving DecidableEq, Repr

/-- An HTTPException raised by a handler. -/
structure HTTPException where
  status_code : Nat
  detail : String
deriving DecidableEq, Repr

/-- The relational store: both tables in storage (insertion) order, plus
the autoincrement counters for the two primary keys. -/
structure Store where
  movies : List MovieDB
  comments : List CommentDB
  nextMovieId : Nat
  nextCommentId : Nat
deriving DecidableEq, Repr

/-- to_movie_out (movie.py lines 168-189): a movie with the comments
whose movie_id equals its id, in storage order. -/
def to_movie_out (movie : MovieDB) (s : Store) : MovieOut :=
  { name := movie.name
    director := movie.director
    open_date := movie.open_date
    genre := movie.genre
    poster_url := movie.poster_url
    comments :=
      (s.comments.filter (fun c => c.movie_id == movie.id)).map (fun c =>
        { movie_name := movie.name
          user_name := c.user_name
          comment := c.comment
          emotion := c.emotion
          confidence_score := c.confidence_score
          rate_score := c.rate_score }) }

/-- GET /movies/get (get_movies, lines 195-198): list every movie with
its comments attached; purely a query. -/
def get_movies (s : Store) : List MovieOut × Store :=
  (s.movies.map (fun m => to_movie_out m s), s)

/-- POST /movies/add (add_movie, lines 201-216): 400 if a movie with the
same name exists, else insert a new row with a fresh primary key. -/
def add_movie (movie : MovieIn) (s : Store) : Except HTTPException String × Store :=
  match s.movies.find? (fun m => m.name == movie.name) with
  | some _ => (.error ⟨400, "Movie already exists"⟩, s)
  | none =>
    let m : MovieDB :=
      { id := s.nextMovieId
        name := movie.name
        director := movie.director
        open_date := movie.open_date
        genre := movie.genre
        poster_url := movie.poster_url }
    (.ok "Movie added successfully",
      { s with movies := s.movies ++ [m], nextMovieId := s.nextMovieId + 1 })

/-- DELETE /movies/delete/(movie_name) (delete_movie, lines 219-233):
404 if absent; else delete every comment whose movie_id is the movie id,
then delete the movie row itself. -/
def delete_movie (movie_name : String) (s : Store) : Except HTTPException String × Store :=
  match s.movies.find? (fun m => m.name == movie_name) with
  | none => (.error ⟨404, "Movie not found"⟩, s)
  | some movie =>
    (.ok "Movie deleted successfully",
      { s with
        comments := s.comments.filter (fun c => !(c.movie_id == movie.id))
        movies := s.movies.filter (fun m => !(m.id == movie.id)) })

/-- POST /movies/comments/add (add_comment, lines 239-259): 404 if the
referenced movie is absent; else classify the body text (the classifier
response parse outcome is the llmResponse argument) and insert the
comment with the derived emotion and confidence_score. -/
def add_comment (llmResponse : Option JValue) (comment : CommentIn) (s : Store) :
    Except HTTPException String × Store :=
  match s.movies.find? (fun m => m.name == comment.movie_name) with
  | none => (.error ⟨404, "Movie not found"⟩, s)
  | some movie =>
    let res := analyze_comment_with_openai llmResponse
    let c : CommentDB :=
      { id := s.nextCommentId
        movie_id := movie.id
        user_name := comment.user_name
        comment := comment.comment
        emotion := res.1
        confidence_score := res.2
        rate_score := comment.rate_score }
    (.ok "Comment added successfully",
      { s with comments := s.comments ++ [c], nextCommentId := s.nextCommentId + 1 })

/-- DELETE /movies/comments/delete/(movie_name)/(user_name)
(delete_comment, lines 262-280): 404 "Movie not found" if the movie is
absent; 404 "Comment not found" if no comment on it has that author;
else delete the first matching comment (by its primary key). -/
def delete_comment (movie_name user_name : String) (s : Store) :
    Except HTTPException String × Store :=
  match s.movies.find? (fun m => m.name == movie_name) with
  | none => (.error ⟨404, "Movie not found"⟩, s)
  | some movie =>
    match s.comments.find? (fun c => c.movie_id == movie.id && c.user_name == user_name) with
    | none => (.error ⟨404, "Comment not found"⟩, s)
    | some target =>
      (.ok "Comment deleted successfully",
        { s with comments := s.comments.filter (fun c => !(c.id == target.id)) })

/-- POST /movies/comments/(movie_name)/average_score
(compute_average_rating, lines 283-299): 404 if the movie is absent;
(0.0, 0.0) for zero comments; else the arithmetic means of rate_score
and of confidence_score over the comments on the movie. -/
def compute_average_rating (movie_name : String) (s : Store) :
    Except HTTPException AverageScores × Store :=
  match s.movies.find? (fun m => m.name == movie_name) with
  | none => (.error ⟨404, "Movie not found"⟩, s)
  | some movie =>
    let comments := s.comments.filter (fun c => c.movie_id == movie.id)
    if comments.length = 0 then
      (.ok ⟨0, 0⟩, s)
    else
      (.ok ⟨(comments.map (fun c => (c.rate_score : ℚ))).sum / comments.length,
            (comments.map (fun c => c.confidence_score)).sum / comments.length⟩, s)

/-- The state invariant of section 3 of the design: every comment
resolves to an existing movie, its rating is in [1,5], its confidence
in [0,1], and its emotion one of the three labels. -/
def Store.Inv (s : Store) : Prop :=
  ∀ c ∈ s.comments,
    (∃ m ∈ s.movies, m.id = c.movie_id) ∧
    1 ≤ c.rate_score ∧ c.rate_score ≤ 5 ∧
    0 ≤ c.confidence_score ∧ c.confidence_score ≤ 1 ∧
    c.emotion ∈ sentimentLabels

/-- True exactly when a handler result is a success response. -/
def isSuccess : Except HTTPException String → Bool
  | .ok _ => true
  | .error _ => false

/-! Concrete fixtures used by witnesses and counterexamples, following
the concrete scenario of section 8 of the design. -/

def duneMovie : MovieDB :=
  { id := 1, name := "Dune", director := "Villeneuve", open_date := "2021-10-22"
    genre := "SciFi", poster_url := "http://x/p.jpg" }

def heatMovie : MovieDB :=
  { id := 2, name := "Heat", director := "Mann", open_date := "1995-12-15"
    genre := "Crime", poster_url := "http://x/h.jpg" }

def cA : CommentDB :=
  { id := 1, movie_id := 1, user_name := "al", comment := "great"
    emotion := "POSITIVE", confidence_score := 1, rate_score := 5 }

def cB : CommentDB :=
  { id := 2, movie_id := 1, user_name := "al", comment := "meh"
    emotion := "NEUTRAL", confidence_score := 0, rate_score := 3 }

def cC : CommentDB :=
  { id := 3, movie_id := 2, user_name := "bo", comment := "bad"
    emotion := "NEGATIVE", confidence_score := 1, rate_score := 1 }

def exStore : Store :=
  { movies := [duneMovie, heatMovie], comments := [cA, cB, cC]
    nextMovieId := 3, nextCommentId := 4 }

def emptyStore : Store :=
  { movies := [], comments := [], nextMovieId := 1, nextCommentId := 1 }

def movieOnlyStore : Store :=
  { movies := [duneMovie], comments := [], nextMovieId := 2, nextCommentId := 1 }

def exMovieIn : MovieIn :=
  { name := "Dune", director := "Villeneuve", open_date := "2021-10-22"
    genre := "SciFi", poster_url := "http://x/p.jpg", comments := [] }

def freshMovieIn : MovieIn :=
  { name := "Alien", director := "Scott", open_date := "1979-05-25"
    genre := "SciFi", poster_url := "http://x/a.jpg", comments := [] }

def exCommentIn : CommentIn :=
  { movie_name := "Dune", user_name := "al", comment := "great", rate_score := 5 }

/-! Helper lemmas, shared between the claim theorems. -/

theorem normalizeLabel_mem (labelStr : String) : normalizeLabel labelStr ∈ sentimentLabels := by
  unfold normalizeLabel
  split
  · assumption
  · simp [sentimentLabels]

theorem clampConfidence_nonneg (q : ℚ) : 0 ≤ clampConfidence q :=
  le_max_left 0 _

theorem clampConfidence_le_one (q : ℚ) : clampConfidence q ≤ 1 :=
  max_le (by norm_num) (min_le_left 1 q)

theorem parseFields_wellformed (fields : List (String × JValue)) :
    (parseFields fields).1 ∈ sentimentLabels ∧
    0 ≤ (parseFields fields).2 ∧ (parseFields fields).2 ≤ 1 := by
  unfold parseFields
  cases hf : pyFloat ((fields.lookup "confidence").getD (.jnum (1/2))) with
  | none => exact ⟨by simp [sentimentLabels], by norm_num, by norm_num⟩
  | some conf =>
    exact ⟨normalizeLabel_mem _, clampConfidence_nonneg conf, clampConfidence_le_one conf⟩

/-- The adapter output is always well formed: the label is one of the
three sentiment labels and the confidence lies in [0, 1]. -/
theorem analyze_wellformed (p : Option JValue) :
    (analyze_comment_with_openai p).1 ∈ sentimentLabels ∧
    0 ≤ (analyze_comment_with_openai p).2 ∧ (analyze_comment_with_openai p).2 ≤ 1 := by
  have hdef : ("NEUTRAL" : String) ∈ sentimentLabels ∧ (0 : ℚ) ≤ 1/2 ∧ (1/2 : ℚ) ≤ 1 :=
    ⟨by simp [sentimentLabels], by norm_num, by norm_num⟩
  match p with
  | none => exact hdef
  | some (.jnull) => exact hdef
  | some (.jbool b) => exact hdef
  | some (.jnum q) => exact hdef
  | some (.jstr t) => exact hdef
  | some (.jarr xs) => exact hdef
  | some (.jobj fields) => exact parseFields_wellformed fields

/-- List search by a key that is unique across the list finds exactly
the member carrying that key. -/
theorem find?_name_eq (l : List MovieDB) (m : MovieDB) (N : String)
    (hnd : (l.map MovieDB.name).Nodup) (hm : m ∈ l) (hN : m.name = N) :
    l.find? (fun x => x.name == N) = some m := by
  induction l with
  | nil => cases hm
  | cons a t ih =>
    rw [List.map_cons, List.nodup_cons] at hnd
    rcases List.mem_cons.mp hm with h | h
    · subst h
      exact List.find?_cons_of_pos _ (by simp [hN])
    · have hne : ¬((fun (x : MovieDB) => x.name == N) a = true) := by
        simp only [beq_iff_eq]
        intro he
        have hmem : m.name ∈ List.map MovieDB.name t := List.mem_map_of_mem MovieDB.name h
        rw [hN] at hmem
        rw [he] at hnd
        exact hnd.1 hmem
      rw [List.find?_cons_of_neg t hne]
      exact ih hnd.2 h

/-- find? over a list split around its first match returns that match. -/
theorem find?_append_first {α : Type} (p : α → Bool) (l₁ l₂ : List α) (c : α)
    (h1 : ∀ x ∈ l₁, p x = false) (hc : p c = true) :
    (l₁ ++ c :: l₂).find? p = some c := by
  induction l₁ with
  | nil => exact List.find?_cons_of_pos _ hc
  | cons a t ih =>
    rw [List.cons_append, List.find?_cons_of_neg _ (by simp [h1 a (by simp)])]
    exact ih (fun x hx => h1 x (List.mem_cons_of_mem a hx))

/-- Removing the rows with the key of c from a list in which that key
occurs only at c removes exactly c. -/
theorem filter_remove_first {α : Type} (f : α → Nat) (l₁ l₂ : List α) (c : α)
    (h : f c ∉ (l₁ ++ l₂).map f) :
    (l₁ ++ c :: l₂).filter (fun x => !(f x == f c)) = l₁ ++ l₂ := by
  rw [List.map_append] at h
  rw [List.filter_append, List.filter_cons]
  simp only [beq_self_eq_true, Bool.not_true, if_neg (by simp : ¬(false = true))]
  rw [List.filter_eq_self.mpr, List.filter_eq_self.mpr]
  · intro a ha
    simp only [Bool.not_eq_true', beq_eq_false_iff_ne, ne_eq]
    intro he
    exact h (List.mem_append_right _ (he ▸ List.mem_map_of_mem f ha))
  · intro a ha
    simp only [Bool.not_eq_true', beq_eq_false_iff_ne, ne_eq]
    intro he
    exact h (List.mem_append_left _ (he ▸ List.mem_map_of_mem f ha))

theorem get_movies_snd (s : Store) : (get_movies s).2 = s := rfl

theorem compute_average_rating_snd (N : String) (s : Store) :
    (compute_average_rating N s).2 = s := by
  unfold compute_average_rating
  cases hfind : s.movies.find? (fun m => m.name == N) with
  | none => rfl
  | some movie =>
    simp only
    split <;> rfl

/-! The claim theorems. -/

/-- Claim C10: get_movies and compute_average_rating are read-only: for
every store state, the store after invoking either handler, whether it
succeeds or returns NotFound, equals the store before. -/
theorem read_only_operations (s : Store) (N : String) :
    (get_movies s).2 = s ∧ (compute_average_rating N s).2 = s :=
  ⟨get_movies_snd s, compute_average_rating_snd N s⟩

/-- Claim C8 counterexample: with no movie stored, DELETE
/movies/delete/Dune does not silently succeed; it fails with 404
"Movie not found". -/
theorem delete_movie_absent_counterexample :
    isSuccess (delete_movie "Dune" emptyStore).1 = false ∧
    (delete_movie "Dune" emptyStore).1 = .error ⟨404, "Movie not found"⟩ :=
  ⟨rfl, rfl⟩

/-- Claim C8 (amended): for every store with no movie of the given name,
DELETE /movies/delete/(name) fails with 404 "Movie not found" and leaves
the store unchanged. -/
theorem delete_movie_absent_returns_not_found (s : Store) (N : String)
    (h : ∀ m ∈ s.movies, m.name ≠ N) :
    delete_movie N s = (.error ⟨404, "Movie not found"⟩, s) := by
  unfold delete_movie
  rw [List.find?_eq_none.mpr (fun x hx => by simpa using h x hx)]

theorem delete_movie_absent_returns_not_found_witness :
    delete_movie "Dune" emptyStore = (.error ⟨404, "Movie not found"⟩, emptyStore) :=
  delete_movie_absent_returns_not_found emptyStore "Dune" (by decide)

/-- Claim C3 counterexample: the movie "Dune" exists and carries no
comments, yet delete_comment reports a distinct 404 "Comment not found"
failure instead of success. -/
theorem delete_comment_missing_comment_counterexample :
    isSuccess (delete_comment "Dune" "al" movieOnlyStore).1 = false ∧
    (delete_comment "Dune" "al" movieOnlyStore).1 = .error ⟨404, "Comment not found"⟩ :=
  ⟨rfl, rfl⟩

/-- Claim C3 (amended): when the movie exists but no comment on it has
the given author, delete_comment returns a distinct 404 "Comment not
found" failure and leaves the store unchanged. -/
theorem delete_comment_missing_comment_not_found (s : Store) (mn un : String) (m : MovieDB)
    (hfind : s.movies.find? (fun x => x.name == mn) = some m)
    (hnone : ∀ c ∈ s.comments, ¬(c.movie_id = m.id ∧ c.user_name = un)) :
    delete_comment mn un s = (.error ⟨404, "Comment not found"⟩, s) := by
  have hfc : s.comments.find? (fun c => c.movie_id == m.id && c.user_name == un) = none :=
    List.find?_eq_none.mpr (fun c hc => by simpa using hnone c hc)
  simp only [delete_comment, hfind, hfc]

theorem delete_comment_missing_comment_not_found_witness :
    delete_comment "Dune" "al" movieOnlyStore =
      (.error ⟨404, "Comment not found"⟩, movieOnlyStore) :=
  delete_comment_missing_comment_not_found movieOnlyStore "Dune" "al" duneMovie
    (by decide) (by decide)

/-- Claim C4: adding a movie whose name equals that of a stored movie
yields 400 Conflict and leaves the store unchanged. -/
theorem add_movie_conflict (s : Store) (movie : MovieIn)
    (h : ∃ m ∈ s.movies, m.name = movie.name) :
    add_movie movie s = (.error ⟨400, "Movie already exists"⟩, s) := by
  unfold add_movie
  obtain ⟨m, hm, hname⟩ := h
  cases hfind : s.movies.find? (fun x => x.name == movie.name) with
  | some x => rfl
  | none =>
    rw [List.find?_eq_none] at hfind
    exact absurd (beq_iff_eq.mpr hname) (hfind m hm)

theorem add_movie_conflict_witness :
    add_movie exMovieIn exStore = (.error ⟨400, "Movie already exists"⟩, exStore) :=
  add_movie_conflict exStore exMovieIn ⟨duneMovie, by decide, by decide⟩

/-- Claim C6: adding a comment for an absent movie yields 404, the store
is unchanged, and the classifier adapter is not consulted: the result is
the same for every classifier response. -/
theorem add_comment_absent_movie (s : Store) (c : CommentIn)
    (h : ∀ m ∈ s.movies, m.name ≠ c.movie_name) :
    (∀ llm, add_comment llm c s = (.error ⟨404, "Movie not found"⟩, s)) ∧
    (∀ llm llm', add_comment llm c s = add_comment llm' c s) := by
  have key : ∀ llm, add_comment llm c s = (.error ⟨404, "Movie not found"⟩, s) := by
    intro llm
    unfold add_comment
    rw [List.find?_eq_none.mpr (fun x hx => by simpa using h x hx)]
  exact ⟨key, fun llm llm' => (key llm).trans (key llm').symm⟩

theorem add_comment_absent_movie_witness :
    add_comment none exCommentIn emptyStore = (.error ⟨404, "Movie not found"⟩, emptyStore) :=
  (add_comment_absent_movie emptyStore exCommentIn (by decide)).1 none

/-- Claim C1: average_scores returns the arithmetic means of the ratings
and of the confidence scores over the comments of the movie, exactly
(0, 0) as a success for a stored movie with zero comments, and 404 for a
movie name matching no stored movie. -/
theorem average_scores_correct (s : Store) (N : String) :
    ((∀ m ∈ s.movies, m.name ≠ N) →
      compute_average_rating N s = (.error ⟨404, "Movie not found"⟩, s)) ∧
    (∀ m, (s.movies.map MovieDB.name).Nodup → m ∈ s.movies → m.name = N →
      (s.comments.filter (fun c => c.movie_id == m.id) = [] →
        compute_average_rating N s = (.ok ⟨0, 0⟩, s)) ∧
      (∀ cs, s.comments.filter (fun c => c.movie_id == m.id) = cs → cs ≠ [] →
        compute_average_rating N s =
          (.ok ⟨((cs.map (fun c => (c.rate_score : ℚ))).sum) / cs.length,
                ((cs.map (fun c => c.confidence_score)).sum) / cs.length⟩, s))) := by
  constructor
  · intro h
    unfold compute_average_rating
    rw [List.find?_eq_none.mpr (fun x hx => by simpa using h x hx)]
  · intro m hnd hm hN
    have hfind := find?_name_eq s.movies m N hnd hm hN
    constructor
    · intro hempty
      simp only [compute_average_rating, hfind, hempty]
      rfl
    · intro cs hcs hne
      simp only [compute_average_rating, hfind, hcs]
      rw [if_neg (by simpa [List.length_eq_zero] using hne)]

theorem average_scores_correct_witness :
    compute_average_rating "Dune" exStore = (.ok ⟨4, 1/2⟩, exStore) := by
  have h := ((average_scores_correct exStore "Dune").2 duneMovie (by decide) (by decide)
      (by decide)).2 [cA, cB] (by decide) (by decide)
  rw [h]
  norm_num [cA, cB]

/-- Claim C5: deleting a stored movie reports success, removes the movie
and exactly the comments referencing it, keeps every other movie and
comment, and a subsequent get_movies lists neither the movie nor any
comment attached to it. -/
theorem delete_movie_cascades (s : Store) (m : MovieDB) (N : String)
    (hids : (s.movies.map MovieDB.id).Nodup)
    (hnames : (s.movies.map MovieDB.name).Nodup)
    (hm : m ∈ s.movies) (hN : m.name = N) :
    (delete_movie N s).1 = .ok "Movie deleted successfully" ∧
    (delete_movie N s).2.movies = s.movies.filter (fun x => !(x.id == m.id)) ∧
    (delete_movie N s).2.comments = s.comments.filter (fun c => !(c.movie_id == m.id)) ∧
    m ∉ (delete_movie N s).2.movies ∧
    (∀ x ∈ s.movies, x ≠ m → x ∈ (delete_movie N s).2.movies) ∧
    (∀ c ∈ s.comments, c.movie_id ≠ m.id → c ∈ (delete_movie N s).2.comments) ∧
    (∀ mo ∈ (get_movies (delete_movie N s).2).1,
      mo.name ≠ N ∧ ∀ co ∈ mo.comments, co.movie_name ≠ N) := by
  have hfind := find?_name_eq s.movies m N hnames hm hN
  have hres : delete_movie N s =
      (.ok "Movie deleted successfully",
        { s with
          comments := s.comments.filter (fun c => !(c.movie_id == m.id))
          movies := s.movies.filter (fun x => !(x.id == m.id)) }) := by
    simp only [delete_movie, hfind]
  rw [hres]
  refine ⟨rfl, rfl, rfl, ?_, ?_, ?_, ?_⟩
  · intro hmem
    have := List.of_mem_filter hmem
    simp at this
  · intro x hx hne
    refine List.mem_filter.mpr ⟨hx, ?_⟩
    simp only [Bool.not_eq_true', beq_eq_false_iff_ne, ne_eq]
    intro he
    exact hne (List.inj_on_of_nodup_map hids hx hm he)
  · intro c hc hne
    exact List.mem_filter.mpr ⟨hc, by simpa using hne⟩
  · intro mo hmo
    obtain ⟨x, hx, rfl⟩ := List.mem_map.mp hmo
    have hxmem : x ∈ s.movies := List.mem_of_mem_filter hx
    have hxid : x.id ≠ m.id := by
      have := List.of_mem_filter hx
      simpa using this
    have hxname : x.name ≠ N := by
      intro he
      exact hxid (congrArg MovieDB.id
        (List.inj_on_of_nodup_map hnames hxmem hm (he.trans hN.symm)))
    refine ⟨hxname, ?_⟩
    intro co hco
    obtain ⟨c, hcmem, rfl⟩ := List.mem_map.mp hco
    exact hxname

theorem delete_movie_cascades_witness :
    (delete_movie "Dune" exStore).1 = .ok "Movie deleted successfully" ∧
    (delete_movie "Dune" exStore).2.movies = [heatMovie] ∧
    (delete_movie "Dune" exStore).2.comments = [cC] := by
  have h := delete_movie_cascades exStore duneMovie "Dune"
    (by decide) (by decide) (by decide) (by decide)
  refine ⟨h.1, ?_, ?_⟩
  · rw [h.2.1]; decide
  · rw [h.2.2.1]; decide

/-- Claim C9: when a movie has several comments by the same author,
delete_comment removes exactly the first matching comment in storage
order, reports success, and keeps every other comment, including the
later comments by that author. -/
theorem delete_comment_removes_first_match (s : Store) (m : MovieDB) (N u : String)
    (hnames : (s.movies.map MovieDB.name).Nodup) (hm : m ∈ s.movies) (hN : m.name = N)
    (hcids : (s.comments.map CommentDB.id).Nodup)
    (l₁ l₂ : List CommentDB) (c₀ : CommentDB)
    (hsplit : s.comments = l₁ ++ c₀ :: l₂)
    (hfirst : ∀ c ∈ l₁, ¬(c.movie_id = m.id ∧ c.user_name = u))
    (hc₀ : c₀.movie_id = m.id ∧ c₀.user_name = u)
    (_hmulti : ∃ c ∈ l₂, c.movie_id = m.id ∧ c.user_name = u) :
    delete_comment N u s =
      (.ok "Comment deleted successfully", { s with comments := l₁ ++ l₂ }) := by
  have hfindm := find?_name_eq s.movies m N hnames hm hN
  have hfindc : (l₁ ++ c₀ :: l₂).find? (fun c => c.movie_id == m.id && c.user_name == u)
      = some c₀ :=
    find?_append_first _ l₁ l₂ c₀
      (fun x hx => by simpa using hfirst x hx) (by simp [hc₀.1, hc₀.2])
  have hid : c₀.id ∉ (l₁ ++ l₂).map CommentDB.id := by
    rw [hsplit, List.map_append, List.map_cons, List.nodup_append] at hcids
    obtain ⟨h1, h2, hdisj⟩ := hcids
    rw [List.nodup_cons] at h2
    intro hmem
    rw [List.map_append] at hmem
    rcases List.mem_append.mp hmem with hA | hB
    · exact hdisj hA (List.mem_cons_self _ _)
    · exact h2.1 hB
  simp only [delete_comment, hfindm, hsplit, hfindc]
  rw [filter_remove_first CommentDB.id l₁ l₂ c₀ hid]

theorem delete_comment_removes_first_match_witness :
    delete_comment "Dune" "al" exStore =
      (.ok "Comment deleted successfully", { exStore with comments := [cB, cC] }) := by
  have h := delete_comment_removes_first_match exStore duneMovie "Dune" "al"
    (by decide) (by decide) (by decide) (by decide) [] [cB, cC] cA
    (by decide) (by decide) (by decide) ⟨cB, by decide, by decide⟩
  exact h

/-- Claim C7: every operation of the domain service preserves the state
invariant: comments resolve to stored movies, ratings lie in [1,5],
confidence scores in [0,1], and emotion labels are one of the three
categories.  The comment input carries the pydantic boundary validation
CommentIn.Valid. -/
theorem operations_preserve_invariant (s : Store) (hs : s.Inv) :
    (∀ movie, ((add_movie movie s).2).Inv) ∧
    (∀ N, ((delete_movie N s).2).Inv) ∧
    (∀ llm c, c.Valid → ((add_comment llm c s).2).Inv) ∧
    (∀ mn un, ((delete_comment mn un s).2).Inv) ∧
    ((get_movies s).2).Inv ∧
    (∀ N, ((compute_average_rating N s).2).Inv) := by
  refine ⟨?_, ?_, ?_, ?_, hs, ?_⟩
  · intro movie
    unfold add_movie
    cases hfind : s.movies.find? (fun x => x.name == movie.name) with
    | some x => exact hs
    | none =>
      intro c hc
      obtain ⟨⟨m', hm', hid⟩, hrest⟩ := hs c hc
      exact ⟨⟨m', List.mem_append_left _ hm', hid⟩, hrest⟩
  · intro N
    unfold delete_movie
    cases hfind : s.movies.find? (fun x => x.name == N) with
    | none => exact hs
    | some movie =>
      intro c hc
      have hcmem : c ∈ s.comments := List.mem_of_mem_filter hc
      have hcne : c.movie_id ≠ movie.id := by
        have := List.of_mem_filter hc
        simpa using this
      obtain ⟨⟨m', hm', hid⟩, hrest⟩ := hs c hcmem
      refine ⟨⟨m', List.mem_filter.mpr ⟨hm', ?_⟩, hid⟩, hrest⟩
      simp only [Bool.not_eq_true', beq_eq_false_iff_ne, ne_eq]
      rw [hid]
      exact hcne
  · intro llm c hvalid
    unfold add_comment
    cases hfind : s.movies.find? (fun x => x.name == c.movie_name) with
    | none => exact hs
    | some movie =>
      intro c' hc'
      rcases List.mem_append.mp hc' with hold | hnew
      · exact hs c' hold
      · have hc'' : c' =
            { id := s.nextCommentId
              movie_id := movie.id
              user_name := c.user_name
              comment := c.comment
              emotion := (analyze_comment_with_openai llm).1
              confidence_score := (analyze_comment_with_openai llm).2
              rate_score := c.rate_score } := by
          simpa using hnew
        subst hc''
        obtain ⟨hlbl, hlo, hhi⟩ := analyze_wellformed llm
        exact ⟨⟨movie, List.mem_of_find?_eq_some hfind, rfl⟩,
          hvalid.1, hvalid.2, hlo, hhi, hlbl⟩
  · intro mn un
    cases hfindm : s.movies.find? (fun x => x.name == mn) with
    | none =>
      simp only [delete_comment, hfindm]
      exact hs
    | some movie =>
      cases hfindc : s.comments.find?
          (fun x => x.movie_id == movie.id && x.user_name == un) with
      | none =>
        simp only [delete_comment, hfindm, hfindc]
        exact hs
      | some target =>
        simp only [delete_comment, hfindm, hfindc]
        intro c hc
        exact hs c (List.mem_of_mem_filter hc)
  · intro N
    rw [compute_average_rating_snd]
    exact hs

theorem operations_preserve_invariant_witness :
    ((add_movie freshMovieIn exStore).2).Inv :=
  (operations_preserve_invariant exStore (by unfold Store.Inv; decide)).1 freshMovieIn

/-- Claim C2: the adapter parsing step never propagates an error: a JSON
parse failure or an unconvertible confidence yields ("NEUTRAL", 0.5); a
missing label, or one outside the three categories after upper-casing,
becomes NEUTRAL; a missing confidence becomes 0.5; a numeric confidence
is clamped into [0,1]; consequently the returned label is always one of
the three categories and the returned confidence always lies in [0,1]. -/
theorem adapter_defensive_parsing (p : Option JValue) :
    (p = none → analyze_comment_with_openai p = ("NEUTRAL", 1/2)) ∧
    (∀ fields, p = some (.jobj fields) →
      (pyFloat ((fields.lookup "confidence").getD (.jnum (1/2))) = none →
        analyze_comment_with_openai p = ("NEUTRAL", 1/2)) ∧
      (fields.lookup "label" = none → (analyze_comment_with_openai p).1 = "NEUTRAL") ∧
      (∀ lv, fields.lookup "label" = some lv → pyUpper (pyStr lv) ∉ sentimentLabels →
        (analyze_comment_with_openai p).1 = "NEUTRAL") ∧
      (fields.lookup "confidence" = none → (analyze_comment_with_openai p).2 = 1/2) ∧
      (∀ q, fields.lookup "confidence" = some (.jnum q) →
        (analyze_comment_with_openai p).2 = max 0 (min 1 q))) ∧
    ((analyze_comment_with_openai p).1 ∈ sentimentLabels ∧
     0 ≤ (analyze_comment_with_openai p).2 ∧ (analyze_comment_with_openai p).2 ≤ 1) := by
  refine ⟨?_, ?_, analyze_wellformed p⟩
  · rintro rfl
    rfl
  · rintro fields rfl
    refine ⟨?_, ?_, ?_, ?_, ?_⟩
    · intro hf
      show parseFields fields = _
      unfold parseFields
      rw [hf]
    · intro hl
      show (parseFields fields).1 = _
      unfold parseFields
      cases hf : pyFloat ((fields.lookup "confidence").getD (.jnum (1/2))) with
      | none => rfl
      | some conf =>
        simp only [hl, Option.getD_none]
        decide
    · intro lv hl hnot
      show (parseFields fields).1 = _
      unfold parseFields
      cases hf : pyFloat ((fields.lookup "confidence").getD (.jnum (1/2))) with
      | none => rfl
      | some conf =>
        simp only [hl, Option.getD_some]
        unfold normalizeLabel
        exact if_neg hnot
    · intro hcnone
      show (parseFields fields).2 = _
      unfold parseFields
      simp only [hcnone, Option.getD_none]
      show clampConfidence (1/2) = 1/2
      unfold clampConfidence
      rw [min_eq_right (by norm_num : (1 : ℚ)/2 ≤ 1),
        max_eq_right (by norm_num : (0 : ℚ) ≤ 1/2)]
    · intro q hq
      show (parseFields fields).2 = _
      unfold parseFields
      simp only [hq, Option.getD_some]
      rfl

theorem adapter_defensive_parsing_witness :
    analyze_comment_with_openai none = ("NEUTRAL", 1/2) :=
  (adapter_defensive_parsing none).1 rfl

end MovieApp
